import Mathlib

/-
Verification of the GhostFetch fetch-orchestration core.

The definitions below are a shallow embedding of the Python sources:
  src/core/scraper.py        (StealthScraper.fetch, _parse_content, ScraperError)
  src/core/job_manager.py    (JobManager._worker, submit_job)
  src/core/stealth_utils.py  (ProxyManager, RoundRobinStrategy, RandomStrategy)
  main.py                    (composition of the above)
Machine-irrelevant side effects (logging, Prometheus metrics, sqlite I/O)
are dropped; randomness and the behaviour of the external browser are
passed in as oracles.
-/

namespace GhostFetch

/-- ScraperError from scraper.py: message, machine code, retryable flag. -/
structure ScraperError where
  message : String
  code : String
  retryable : Bool
deriving Repr, DecidableEq

/-- The HTTP statuses treated as retryable in StealthScraper.fetch
(scraper.py line 165): `response.status in [408, 429, 500, 502, 503, 504]`. -/
def retryable_statuses : List Nat := [408, 429, 500, 502, 503, 504]

/-! ## HTML document model and the Content Extractor (_parse_content) -/

/-- An HTML node: either a text node or an element with a tag name, an
attribute list (first occurrence wins on lookup, as in html.parser) and
children. -/
inductive Html where
  | text (s : String)
  | elem (tag : String) (attrs : List (String × String)) (children : List Html)

/-- A document is a forest of top-level nodes. -/
def Doc := List Html

/-- Attribute lookup, first occurrence (html.parser keeps the first value
of a duplicated attribute). Models `tag.get(name)`. -/
def getAttr (h : Html) (name : String) : Option String :=
  match h with
  | .text _ => none
  | .elem _ attrs _ => (attrs.find? (fun a => a.1 = name)).map (fun a => a.2)

/-- `tag.get(name, default)`. -/
def getAttrD (h : Html) (name dflt : String) : String :=
  (getAttr h name).getD dflt

/-- Does this node match `soup.find(tagName)`? Text nodes never match. -/
def isTagNamed (t : String) (h : Html) : Bool :=
  match h with
  | .text _ => false
  | .elem tag _ _ => tag = t

/-- Does this node match `soup.find("meta", attrs={key: value})`? -/
def isMetaWith (key value : String) (h : Html) : Bool :=
  isTagNamed "meta" h &&
    match getAttr h key with
    | some v => v = value
    | none => false

mutual

/-- `tag.get_text()`: concatenation of all text descendants in order. -/
def get_text : Html → String
  | .text s => s
  | .elem _ _ c => get_text_list c

def get_text_list : List Html → String
  | [] => ""
  | h :: hs => get_text h ++ get_text_list hs

end

mutual

/-- `soup.find(...)`: first node in document (preorder) order satisfying
the predicate, searching the node itself then its children. -/
def findFirst (p : Html → Bool) : Html → Option Html
  | .text s => if p (.text s) then some (.text s) else none
  | .elem t a c =>
      if p (.elem t a c) then some (.elem t a c) else findFirstList p c

def findFirstList (p : Html → Bool) : List Html → Option Html
  | [] => none
  | h :: hs =>
      match findFirst p h with
      | some r => some r
      | none => findFirstList p hs

end

mutual

/-- `soup.find_all(...)`: all matching nodes in document (preorder) order. -/
def findAll (p : Html → Bool) : Html → List Html
  | .text s => if p (.text s) then [.text s] else []
  | .elem t a c =>
      (if p (.elem t a c) then [Html.elem t a c] else []) ++ findAllList p c

def findAllList (p : Html → Bool) : List Html → List Html
  | [] => []
  | h :: hs => findAll p h ++ findAllList p hs

end

mutual

/-- All nodes of a tree in document (preorder) order. Used by the
specification-side definitions of the extractor. -/
def preorder : Html → List Html
  | .text s => [.text s]
  | .elem t a c => .elem t a c :: preorderList c

def preorderList : List Html → List Html
  | [] => []
  | h :: hs => preorder h ++ preorderList hs

end

/-- Extracted metadata: `{title, author, publish_date, images}`. -/
structure Metadata where
  title : String
  author : String
  publish_date : String
  images : List String
deriving Repr, DecidableEq

/-- Title extraction from _parse_content (scraper.py lines 221-223):
text of the first `<title>`, stripped; `""` when absent. -/
def parse_title (doc : Doc) : String :=
  match findFirstList (isTagNamed "title") doc with
  | some t => (get_text t).trim
  | none => ""

/-- Author extraction (scraper.py lines 226-229):
`find(meta, name=author) or find(meta, property=article:author)`,
then `.get("content", "").strip()`; `""` when neither matches. -/
def parse_author (doc : Doc) : String :=
  match (findFirstList (isMetaWith "name" "author") doc).orElse
      (fun _ => findFirstList (isMetaWith "property" "article:author") doc) with
  | some m => (getAttrD m "content" "").trim
  | none => ""

/-- Publish-date extraction (scraper.py lines 232-236): three patterns
tried in order, then `.get("content", "").strip()`. -/
def parse_publish_date (doc : Doc) : String :=
  match ((findFirstList (isMetaWith "name" "publish-date") doc).orElse
      (fun _ => findFirstList (isMetaWith "property" "article:published_time") doc)).orElse
      (fun _ => findFirstList (isMetaWith "name" "date") doc) with
  | some m => (getAttrD m "content" "").trim
  | none => ""

/-- Image extraction (scraper.py lines 239-242): iterate `find_all("img")`
in order, appending `src` when `src` is truthy and starts with `"http"`. -/
def parse_images (doc : Doc) : List String :=
  (findAllList (isTagNamed "img") doc).foldl
    (fun acc img =>
      match getAttr img "src" with
      | some src => if src ≠ "" ∧ src.startsWith "http" then acc ++ [src] else acc
      | none => acc)
    []

/-- The metadata computed by _parse_content. -/
def parse_metadata (doc : Doc) : Metadata :=
  { title := parse_title doc
    author := parse_author doc
    publish_date := parse_publish_date doc
    images := parse_images doc }

/-- Specification-side reference: title is the trimmed text of the first
`<title>` element in document order, empty string if absent. -/
def spec_title (doc : Doc) : String :=
  match ((preorderList doc).filter (isTagNamed "title")).head? with
  | some t => (get_text t).trim
  | none => ""

/-- Specification-side reference: the trimmed content of the first
document-order `<meta>` matching the given attribute pattern. -/
def spec_meta_content (key value : String) (doc : Doc) : Option String :=
  (((preorderList doc).filter (isMetaWith key value)).head?).map
    (fun m => (getAttrD m "content" "").trim)

/-- Specification-side reference: author tries `name="author"` then
`property="article:author"`. -/
def spec_author (doc : Doc) : String :=
  ((spec_meta_content "name" "author" doc).orElse
    (fun _ => spec_meta_content "property" "article:author" doc)).getD ""

/-- Specification-side reference: publish_date tries `name="publish-date"`,
then `property="article:published_time"`, then `name="date"`. -/
def spec_publish_date (doc : Doc) : String :=
  (((spec_meta_content "name" "publish-date" doc).orElse
    (fun _ => spec_meta_content "property" "article:published_time" doc)).orElse
    (fun _ => spec_meta_content "name" "date" doc)).getD ""

/-- Specification-side reference: the src attributes of every `<img>` whose
src begins with `"http"`, in document order, preserving duplicates. -/
def spec_images (doc : Doc) : List String :=
  (((preorderList doc).filter (isTagNamed "img")).filterMap
    (fun h => getAttr h "src")).filter (fun s => s.startsWith "http")

/-- The reference metadata, assembled from the specification wording. -/
def spec_metadata (doc : Doc) : Metadata :=
  { title := spec_title doc
    author := spec_author doc
    publish_date := spec_publish_date doc
    images := spec_images doc }

/-! ## Fetch Engine outcome classification (StealthScraper.fetch) -/

/-- The value returned by `self._parse_content(content)`: metadata plus the
html2text Markdown rendering. The Markdown conversion itself is performed
by the external html2text library; it enters the model as the oracle
argument `md` of `fetch_result`. -/
structure ParsedContent where
  metadata : Metadata
  markdown : String

/-- The outcome of the navigation and capture steps, as reported by the
external browser library (playwright): no response handle, a response with
an HTTP status together with the captured document (`none` when
`page.content()` is the empty string), a navigation timeout, or any other
navigation exception. -/
inductive NavOutcome where
  | noResponse
  | status (n : Nat) (capture : Option Doc)
  | timeoutErr
  | otherError (msg : String)

/-- What fetch returns: a parsed artifact, or the bare empty string
(`return ""` at scraper.py line 207). -/
inductive FetchReturn where
  | artifact (pc : ParsedContent)
  | empty

/-- The tail of StealthScraper.fetch (scraper.py lines 157-207): classify
the navigation outcome into a ScraperError, or parse the captured content,
or return the empty string when the capture was empty. `md` is the
html2text conversion oracle. -/
def fetch_result (domain : String) (md : Doc → String) (o : NavOutcome) :
    Except ScraperError FetchReturn :=
  match o with
  | .noResponse =>
      .error ⟨"No response from " ++ domain, "no_response", true⟩
  | .timeoutErr =>
      .error ⟨"Timeout fetching " ++ domain, "timeout", true⟩
  | .otherError msg =>
      .error ⟨"Error fetching " ++ domain ++ ": " ++ msg, "fetch_error", true⟩
  | .status n capture =>
      if 400 ≤ n then
        .error ⟨"HTTP " ++ toString n ++ " from " ++ domain,
                "http_" ++ toString n,
                retryable_statuses.contains n⟩
      else
        match capture with
        | some doc => .ok (.artifact ⟨parse_metadata doc, md doc⟩)
        | none => .ok .empty

/-! ## Job Broker worker loop (JobManager._worker) -/

/-- The outcome of one `await self.scraper.fetch(...)` call as seen from
the worker's try block: a dict result, the empty-string result, a raised
ScraperError, or any other Python exception (e.g. a TypeError). -/
inductive AttemptResult where
  | success (pc : ParsedContent)
  | emptyContent
  | scraperError (e : ScraperError)
  | pyError (msg : String)

/-- How the worker converts the value or exception coming out of the
engine into an AttemptResult. -/
def to_attempt (r : Except ScraperError FetchReturn) : AttemptResult :=
  match r with
  | .ok (.artifact pc) => .success pc
  | .ok .empty => .emptyContent
  | .error e => .scraperError e

/-- The ScraperError raised by the worker when fetch returns a non-dict
(job_manager.py lines 152-157). -/
def no_content_error : ScraperError :=
  ⟨"No content could be fetched from the URL", "no_content", true⟩

/-- The error recorded by the worker's generic exception handler
(job_manager.py lines 180-186). -/
def internal_error (msg : String) : ScraperError :=
  ⟨msg, "internal_error", false⟩

/-- Evaluate one iteration of the worker's try block to either a parsed
result or the ScraperError that governs the except branches: an empty or
non-dict result raises `no_content_error`, and any non-ScraperError
exception is recorded as `internal_error` with retryable false. -/
def attempt_eval (r : AttemptResult) : Except ScraperError ParsedContent :=
  match r with
  | .success pc => .ok pc
  | .emptyContent => .error no_content_error
  | .scraperError e => .error e
  | .pyError msg => .error (internal_error msg)

/-- The job fields the worker mutates (job_manager.py Job model). -/
structure JobRec where
  status : String
  result : Option ParsedContent
  error : Option String
  error_details : Option (String × Bool)

/-- A freshly submitted job (submit_job, job_manager.py lines 117-123). -/
def new_job : JobRec :=
  { status := "queued", result := none, error := none, error_details := none }

/-- The worker's retry loop (job_manager.py lines 143-186), transcribed
over an oracle `outcomes` giving the result of the fetch call at each
attempt index and an oracle `jitter` giving each `random.uniform(0, 1)`
draw. Returns the final job record, the number of fetch attempts made, and
the list of backoff sleeps performed. `fuel` is an upper bound on loop
iterations supplied by `process_job`; it only exists to make the recursion
structural and never runs out when `fuel ≥ maxR + 1 - attempt`. -/
def worker_loop (outcomes : Nat → AttemptResult) (jitter : Nat → ℚ)
    (maxR : Nat) : Nat → Nat → JobRec → JobRec × Nat × List ℚ
  | 0, _, job => (job, 0, [])
  | fuel + 1, attempt, job =>
    if attempt ≤ maxR then
      match attempt_eval (outcomes attempt) with
      | .ok pc =>
          ({ job with result := some pc, status := "completed",
                      error := none, error_details := none }, 1, [])
      | .error e =>
          let job1 := { job with error := some e.message,
                                 error_details := some (e.code, e.retryable) }
          if e.retryable ∧ attempt < maxR then
            let rest := worker_loop outcomes jitter maxR fuel (attempt + 1) job1
            (rest.1, rest.2.1 + 1,
              ((2 : ℚ) ^ (attempt + 1) + jitter attempt) :: rest.2.2)
          else
            ({ job1 with status := "failed" }, 1, [])
    else (job, 0, [])

/-- Processing of one dequeued job by the worker: mark it processing, then
run the retry loop from attempt 0. -/
def process_job (outcomes : Nat → AttemptResult) (jitter : Nat → ℚ)
    (maxR : Nat) : JobRec × Nat × List ℚ :=
  worker_loop outcomes jitter maxR (maxR + 1) 0 { new_job with status := "processing" }

/-- The statuses persisted for a job that a worker picks up: `_save_job`
is called at submit (queued), when the worker marks it processing, and
once more with the terminal status after the retry loop. -/
def persisted_statuses (outcomes : Nat → AttemptResult) (jitter : Nat → ℚ)
    (maxR : Nat) : List String :=
  ["queued", "processing", (process_job outcomes jitter maxR).1.status]

/-! ## The fetch call boundary (main.py composition, claim C4) -/

/-- The parameters accepted by StealthScraper.fetch
(scraper.py line 88: `async def fetch(self, url: str)`). -/
def fetch_param_names : List String := ["url"]

/-- The keyword arguments the worker passes at the call site
(job_manager.py line 150:
`self.scraper.fetch(job.url, context_id=job.context_id)`); the keyword is
present whatever value `job.context_id` has, `None` included. -/
def worker_fetch_kwargs : List String := ["context_id"]

/-- The keyword arguments the synchronous endpoint passes (main.py line
100: `scraper.fetch(request.url, context_id=request.context_id)`). -/
def sync_fetch_kwargs : List String := ["context_id"]

/-- Python call semantics fragment: calling a function with no `**kwargs`
parameter raises TypeError exactly when some keyword argument is not among
the parameter names. The TypeError is raised at the call itself, before
any of the function body (hence before any navigation) runs. -/
def call_raises_type_error (params kwargs : List String) : Bool :=
  kwargs.any (fun k => !params.contains k)

/-- The worker-visible outcome of one fetch call in the composed system:
if the keyword arguments mismatch the parameters, a TypeError is raised
inside the worker's try block before the engine runs; otherwise the
engine's value or exception (`engine`) is what the worker sees. -/
def composed_attempt_outcome (engine : Except ScraperError FetchReturn) : AttemptResult :=
  if call_raises_type_error fetch_param_names worker_fetch_kwargs then
    .pyError "StealthScraper.fetch() got an unexpected keyword argument context_id"
  else
    to_attempt engine

/-! ## Proxy Health Manager (stealth_utils.py ProxyManager) -/

/-- The rotation strategy chosen at startup. -/
inductive Strategy where
  | roundRobin
  | random
deriving Repr, DecidableEq

/-- ProxyManager state: the validated proxy list, the strategy (with the
round-robin index of RoundRobinStrategy), the quarantine set
`bad_proxies`, the `proxy_failures` counts and the `proxy_latency`
windows. Sets and dicts are modelled as lists keyed by membership /
first-match lookup. -/
structure PMState where
  proxies : List String
  strategy : Strategy
  rr_index : Nat
  bad_proxies : List String
  proxy_failures : List (String × Nat)
  proxy_latency : List (String × List ℚ)
deriving Repr, DecidableEq

/-- Dict read with default 0: `self.proxy_failures.get(p, 0)`. -/
def failures_of (s : PMState) (p : String) : Nat :=
  ((s.proxy_failures.find? (fun a => a.1 = p)).map (fun a => a.2)).getD 0

/-- Dict write: replace the binding of `p` (removing any old one). -/
def set_assoc (l : List (String × Nat)) (p : String) (n : Nat) :
    List (String × Nat) :=
  (p, n) :: l.filter (fun a => a.1 ≠ p)

/-- `self.strategy.get_proxy(available)` plus the strategy's own state
change. RoundRobinStrategy returns `available[index % len]` and bumps the
index; RandomStrategy returns `random.choice(available)`, modelled by the
oracle index `rand` reduced mod the list length. Only called on a
non-empty list. -/
def pick_proxy (s : PMState) (avail : List String) (rand : Nat) :
    PMState × Option String :=
  match s.strategy with
  | .roundRobin =>
      ({ s with rr_index := s.rr_index + 1 },
       some (avail.getD (s.rr_index % avail.length) ""))
  | .random =>
      (s, some (avail.getD (rand % avail.length) ""))

/-- `get_next_proxy` (stealth_utils.py lines 52-65): filter out
quarantined proxies; when none remain and the pool is non-empty, clear
the quarantine set and draw from the full list; when the pool is empty
return None. Also returns whether the full-pool reset fired. -/
def get_next_proxy (s : PMState) (rand : Nat) :
    PMState × Option String × Bool :=
  let avail := s.proxies.filter (fun p => !s.bad_proxies.contains p)
  if avail.isEmpty then
    if !s.proxies.isEmpty then
      let picked := pick_proxy { s with bad_proxies := [] } s.proxies rand
      (picked.1, picked.2, true)
    else (s, none, false)
  else
    let picked := pick_proxy s avail rand
    (picked.1, picked.2, false)

/-- `mark_bad` (stealth_utils.py lines 75-81): guard against falsy (empty)
proxy, increment the failure count, and quarantine at 3 failures. -/
def mark_bad (s : PMState) (p : String) : PMState :=
  if p = "" then s
  else
    let n := failures_of s p + 1
    let s1 := { s with proxy_failures := set_assoc s.proxy_failures p n }
    if 3 ≤ n then
      { s1 with bad_proxies :=
          if s1.bad_proxies.contains p then s1.bad_proxies
          else p :: s1.bad_proxies }
    else s1

/-- `mark_good` (stealth_utils.py lines 83-89): delete the failure count
and remove the proxy from the quarantine set. -/
def mark_good (s : PMState) (p : String) : PMState :=
  if p = "" then s
  else
    { s with proxy_failures := s.proxy_failures.filter (fun a => a.1 ≠ p),
             bad_proxies := s.bad_proxies.filter (fun q => q ≠ p) }

/-- `record_latency` (stealth_utils.py lines 67-73): append to the
proxy's window and drop the front when it exceeds 10 entries. -/
def record_latency (s : PMState) (p : String) (ms : ℚ) : PMState :=
  let old := ((s.proxy_latency.find? (fun a => a.1 = p)).map (fun a => a.2)).getD []
  let appended := old ++ [ms]
  let window := if 10 < appended.length then appended.drop 1 else appended
  { s with proxy_latency :=
      (p, window) :: s.proxy_latency.filter (fun a => a.1 ≠ p) }

/-- One call into the ProxyManager. -/
inductive PMEvent where
  | next (rand : Nat)
  | markBad (p : String)
  | markGood (p : String)
  | recordLatency (p : String) (ms : ℚ)
deriving Repr, DecidableEq

/-- Apply one event; the middle component is the output of a `next` call
and the flag records whether that `next` performed the full-pool reset. -/
def pm_step (s : PMState) (e : PMEvent) : PMState × Option (Option String) × Bool :=
  match e with
  | .next rand =>
      let g := get_next_proxy s rand
      (g.1, some g.2.1, g.2.2)
  | .markBad p => (mark_bad s p, none, false)
  | .markGood p => (mark_good s p, none, false)
  | .recordLatency p ms => (record_latency s p ms, none, false)

/-- Run a trace of events, collecting for each `next` call its output and
its reset flag. -/
def pm_run (s : PMState) : List PMEvent → PMState × List (Option String × Bool)
  | [] => (s, [])
  | e :: es =>
      let st := pm_step s e
      let rest := pm_run st.1 es
      (rest.1,
       match st.2.1 with
       | some r => (r, st.2.2) :: rest.2
       | none => rest.2)

/-! ## Per-domain pacing (StealthScraper.fetch, scraper.py lines 101-110) -/

/-- The phase of a worker with respect to the pacing block for one host:
not yet entered, suspended in `asyncio.sleep(wait_time)` until the given
wake time, or past the timestamp write and dispatched at the given time. -/
inductive WStatus where
  | idle
  | sleeping (wake : ℚ)
  | dispatched (t : ℚ)
deriving Repr, DecidableEq

/-- The cooperative system state for one host: the event-loop clock, the
host's `last_fetch` entry, and each worker's phase. -/
structure PaceSys where
  clock : ℚ
  last : Option ℚ
  workers : List WStatus
deriving Repr, DecidableEq

/-- Scheduler commands: worker `w` reaches the pacing block at absolute
time `t`, or a sleeping worker is resumed by the event loop. -/
inductive PaceCmd where
  | enter (w : Nat) (t : ℚ)
  | wake (w : Nat)
deriving Repr, DecidableEq

/-- One cooperative step of the pacing code. Code between awaits runs
atomically: a worker that needs no sleep reads `last_fetch`, writes the
current time and dispatches in one step; a worker that must wait suspends
in `asyncio.sleep` and, on resumption at its wake time, writes
`time.time()` into `last_fetch` and dispatches. `D` is MIN_DOMAIN_DELAY. -/
def pace_step (D : ℚ) (s : PaceSys) (c : PaceCmd) : Option PaceSys :=
  match c with
  | .enter w t =>
      match s.workers.get? w with
      | some .idle =>
          if s.clock ≤ t then
            match s.last with
            | none =>
                some { clock := t, last := some t,
                       workers := s.workers.set w (.dispatched t) }
            | some ts =>
                if t - ts < D then
                  some { clock := t, last := s.last,
                         workers := s.workers.set w (.sleeping (ts + D)) }
                else
                  some { clock := t, last := some t,
                         workers := s.workers.set w (.dispatched t) }
          else none
      | _ => none
  | .wake w =>
      match s.workers.get? w with
      | some (.sleeping u) =>
          if s.clock ≤ u then
            some { clock := u, last := some u,
                   workers := s.workers.set w (.dispatched u) }
          else none
      | _ => none

/-- Run a command list through `pace_step`. -/
def pace_run (D : ℚ) : PaceSys → List PaceCmd → Option PaceSys
  | s, [] => some s
  | s, c :: cs =>
      match pace_step D s c with
      | some s1 => pace_run D s1 cs
      | none => none

/-! ## Browser recycling (StealthScraper.fetch, scraper.py lines 89-96) -/

/-- The browser-wide counter and the identity (generation number) of the
current browser instance. -/
structure BrowserState where
  requests_count : Nat
  instance_id : Nat
deriving Repr, DecidableEq

/-- The restart critical section run at the head of every fetch:
increment `requests_count`; when it exceeds MAX_REQUESTS_PER_BROWSER,
tear the browser down, reset the counter to 1 and relaunch (a fresh
instance); the navigation of this fetch is then served by the current
instance. Returns the new state and the serving instance. -/
def browser_fetch_step (maxReq : Nat) (s : BrowserState) : BrowserState × Nat :=
  let c := s.requests_count + 1
  if maxReq < c then
    ({ requests_count := 1, instance_id := s.instance_id + 1 }, s.instance_id + 1)
  else
    ({ s with requests_count := c }, s.instance_id)

/-- Run `n` fetches from a browser state, collecting which instance served
each navigation. -/
def browser_run (maxReq : Nat) : Nat → BrowserState → BrowserState × List Nat
  | 0, s => (s, [])
  | n + 1, s =>
      let st := browser_fetch_step maxReq s
      let rest := browser_run maxReq n st.1
      (rest.1, st.2 :: rest.2)

/-- The state at process start: counter 0, first browser instance. -/
def browser_init : BrowserState := { requests_count := 0, instance_id := 0 }

/-! ## Concrete example inputs used by witnesses and counterexamples -/

/-- A trivial Markdown-conversion oracle. -/
def c_md : Doc → String := fun _ => ""

/-- A trivial parsed artifact. -/
def c_pc : ParsedContent := ⟨⟨"", "", "", []⟩, ""⟩

/-- Every attempt succeeds. -/
def c_ok_outcomes : Nat → AttemptResult := fun _ => .success c_pc

/-- Every attempt raises a retryable timeout. -/
def c_timeout_outcomes : Nat → AttemptResult :=
  fun _ => .scraperError ⟨"Timeout fetching example.com", "timeout", true⟩

/-- First attempt raises a retryable timeout, the second a non-retryable
HTTP 404. -/
def c_then404_outcomes : Nat → AttemptResult :=
  fun k =>
    if k = 0 then .scraperError ⟨"Timeout fetching example.com", "timeout", true⟩
    else .scraperError ⟨"HTTP 404 from example.com", "http_404", false⟩

/-- First attempt raises a retryable timeout, the rest succeed. -/
def c_then_ok_outcomes : Nat → AttemptResult :=
  fun k =>
    if k = 0 then .scraperError ⟨"Timeout fetching example.com", "timeout", true⟩
    else .success c_pc

/-- A jitter oracle that always draws 0. -/
def c_jitter : Nat → ℚ := fun _ => 0

/-- Pacing scenario: three idle workers, blank pacing map, clock 0. -/
def pace_init : PaceSys := ⟨0, none, [.idle, .idle, .idle]⟩

/-- Pacing scenario: worker 2 fetches the host at time 0; workers 0 and 1
reach the pacing block at times 1 and 2 while the recorded timestamp is
still 0, so both sleep until time 10 and then dispatch together. -/
def pace_cmds : List PaceCmd :=
  [.enter 2 0, .enter 0 1, .enter 1 2, .wake 0, .wake 1]

/-- A two-proxy pool with round-robin rotation, fresh. -/
def c6_fresh : PMState :=
  { proxies := ["http://a:1", "http://b:2"], strategy := .roundRobin,
    rr_index := 0, bad_proxies := [], proxy_failures := [], proxy_latency := [] }

/-- The same pool with the first proxy quarantined. -/
def c6_quarantined : PMState :=
  { c6_fresh with bad_proxies := ["http://a:1"],
                  proxy_failures := [("http://a:1", 3)] }

/-- A trace with one rotation call and a failure mark on the other proxy,
and no mark_good on the quarantined one. -/
def c6_trace : List PMEvent := [.next 0, .markBad "http://b:2", .next 5]

/-! ## Theorems -/

/-- Claim C1: every classified fetch error carries retryable=true exactly
when it is a transient transport failure. `no_response`, `timeout`,
`fetch_error` and `no_content` are retryable; `http_<N>` is retryable iff
N ∈ {408, 429, 500, 502, 503, 504}; `internal_error` is not retryable. -/
theorem C1_retryable_classification (domain msg : String) (md : Doc → String)
    (n : Nat) (cap : Option Doc) :
    fetch_result domain md .noResponse =
      .error ⟨"No response from " ++ domain, "no_response", true⟩
    ∧ fetch_result domain md .timeoutErr =
      .error ⟨"Timeout fetching " ++ domain, "timeout", true⟩
    ∧ fetch_result domain md (.otherError msg) =
      .error ⟨"Error fetching " ++ domain ++ ": " ++ msg, "fetch_error", true⟩
    ∧ (400 ≤ n →
        fetch_result domain md (.status n cap) =
          .error ⟨"HTTP " ++ toString n ++ " from " ++ domain,
                  "http_" ++ toString n, retryable_statuses.contains n⟩)
    ∧ (retryable_statuses.contains n = true ↔
        n = 408 ∨ n = 429 ∨ n = 500 ∨ n = 502 ∨ n = 503 ∨ n = 504)
    ∧ no_content_error.retryable = true
    ∧ no_content_error.code = "no_content"
    ∧ (internal_error msg).retryable = false
    ∧ (internal_error msg).code = "internal_error" := by
  refine ⟨rfl, rfl, rfl, ?_, ?_, rfl, rfl, rfl, rfl⟩
  · intro h
    simp [fetch_result, h]
  · simp [retryable_statuses]

/-- Witness for C1 at HTTP 404 (non-retryable) and 503 (retryable). -/
theorem C1_retryable_classification_witness :
    fetch_result "example.com" c_md (.status 404 none) =
      .error ⟨"HTTP 404 from example.com", "http_404", false⟩
    ∧ fetch_result "example.com" c_md (.status 503 none) =
      .error ⟨"HTTP 503 from example.com", "http_503", true⟩ := by
  have h1 := (C1_retryable_classification "example.com" "m" c_md 404 none).2.2.2.1
    (by norm_num)
  have h2 := (C1_retryable_classification "example.com" "m" c_md 503 none).2.2.2.1
    (by norm_num)
  exact ⟨h1, h2⟩

/-- Claim C4: the composition wired by main.py calls
`scraper.fetch(url, context_id=...)` although StealthScraper.fetch accepts
only `url`, so every worker attempt raises TypeError before any
navigation; the worker records `{internal_error, retryable=false}` and the
job fails after exactly one attempt, whatever the engine would have
returned and whatever the retry budget. -/
theorem C4_context_id_type_error (engine : Except ScraperError FetchReturn)
    (jitter : Nat → ℚ) (maxR : Nat) :
    call_raises_type_error fetch_param_names worker_fetch_kwargs = true
    ∧ call_raises_type_error fetch_param_names sync_fetch_kwargs = true
    ∧ composed_attempt_outcome engine =
        .pyError "StealthScraper.fetch() got an unexpected keyword argument context_id"
    ∧ (process_job (fun _ => composed_attempt_outcome engine) jitter maxR).1.status
        = "failed"
    ∧ (process_job (fun _ => composed_attempt_outcome engine) jitter maxR).2.1 = 1
    ∧ (process_job (fun _ => composed_attempt_outcome engine) jitter maxR).1.error_details
        = some ("internal_error", false) := by
  refine ⟨rfl, rfl, rfl, ?_, ?_, ?_⟩ <;>
    simp [process_job, worker_loop, composed_attempt_outcome,
      call_raises_type_error, fetch_param_names, worker_fetch_kwargs,
      attempt_eval, internal_error, Nat.zero_le]

/-- Claim C10, counterexample: on an empty capture the engine's fetch does
not propagate `{no_content, retryable=true}`; it returns the bare empty
string (a non-error value that is not an artifact). -/
theorem C10_counterexample :
    fetch_result "example.com" c_md (.status 200 none) = .ok .empty
    ∧ (Except.ok .empty : Except ScraperError FetchReturn) ≠
        .error no_content_error
    ∧ ∀ pc, (FetchReturn.empty ≠ FetchReturn.artifact pc) := by
  refine ⟨rfl, ?_, ?_⟩
  · intro h
    cases h
  · intro pc h
    cases h

/-- Claim C10, amended: on empty capture fetch returns the empty string;
the worker then classifies that value as `{no_content, retryable=true}`
when it checks `if not result or not isinstance(result, dict)`, so at the
worker boundary every attempt yields either a parsed artifact or a
classified error. -/
theorem C10_amended_no_content (domain : String) (md : Doc → String) (n : Nat)
    (h : n < 400) :
    fetch_result domain md (.status n none) = .ok .empty
    ∧ to_attempt (fetch_result domain md (.status n none)) = .emptyContent
    ∧ attempt_eval (to_attempt (fetch_result domain md (.status n none))) =
        .error no_content_error
    ∧ no_content_error =
        ⟨"No content could be fetched from the URL", "no_content", true⟩
    ∧ ∀ o : NavOutcome,
        (∃ pc, attempt_eval (to_attempt (fetch_result domain md o)) = .ok pc)
        ∨ ∃ e, attempt_eval (to_attempt (fetch_result domain md o)) = .error e := by
  have hn : ¬ 400 ≤ n := by omega
  refine ⟨by simp [fetch_result, hn], by simp [fetch_result, hn, to_attempt],
    by simp [fetch_result, hn, to_attempt, attempt_eval], rfl, ?_⟩
  intro o
  cases hE : attempt_eval (to_attempt (fetch_result domain md o)) with
  | ok pc => exact .inl ⟨pc, rfl⟩
  | error e => exact .inr ⟨e, rfl⟩

/-- Witness for the amended C10 at status 200. -/
theorem C10_amended_no_content_witness :
    fetch_result "example.com" c_md (.status 200 none) = .ok .empty
    ∧ attempt_eval (to_attempt (fetch_result "example.com" c_md (.status 200 none))) =
        .error no_content_error := by
  have h := C10_amended_no_content "example.com" c_md 200 (by norm_num)
  exact ⟨h.1, h.2.2.1⟩

/-- The number of fetch calls performed by the retry loop from a given
attempt index is at most `maxR + 1 - attempt`. -/
theorem worker_loop_calls_le (outcomes : Nat → AttemptResult) (jitter : Nat → ℚ)
    (maxR : Nat) :
    ∀ fuel attempt job,
      (worker_loop outcomes jitter maxR fuel attempt job).2.1 ≤ maxR + 1 - attempt := by
  intro fuel
  induction fuel with
  | zero => intro attempt job; simp [worker_loop]
  | succ fuel ih =>
    intro attempt job
    simp only [worker_loop]
    split
    · rename_i hle
      cases hE : attempt_eval (outcomes attempt) with
      | ok pc => simpa using by omega
      | error e =>
        simp only
        split
        · rename_i hretry
          have h := ih (attempt + 1)
            { job with error := some e.message,
                       error_details := some (e.code, e.retryable) }
          simp only at h ⊢
          omega
        · simpa using by omega
    · simp

/-- When the loop is entered with budget remaining, at least one fetch
call is made. -/
theorem worker_loop_calls_pos (outcomes : Nat → AttemptResult) (jitter : Nat → ℚ)
    (maxR : Nat) :
    ∀ fuel attempt job, attempt ≤ maxR → 1 ≤ fuel →
      1 ≤ (worker_loop outcomes jitter maxR fuel attempt job).2.1 := by
  intro fuel
  induction fuel with
  | zero => intro _ _ _ h; omega
  | succ fuel _ =>
    intro attempt job hle _
    simp only [worker_loop, hle, if_true]
    cases hE : attempt_eval (outcomes attempt) with
    | ok pc => simp
    | error e =>
      simp only
      split
      · simp
      · simp

/-- Terminal-state invariants of the retry loop: starting from a
processing job with no result, the loop always ends in `completed` or
`failed`; completion holds a result and clears both error fields; failure
holds an error and no result. -/
theorem worker_loop_terminal (outcomes : Nat → AttemptResult) (jitter : Nat → ℚ)
    (maxR : Nat) :
    ∀ fuel attempt job, attempt ≤ maxR → maxR + 1 - attempt ≤ fuel →
      job.status = "processing" → job.result = none →
      ((worker_loop outcomes jitter maxR fuel attempt job).1.status = "completed"
        ∨ (worker_loop outcomes jitter maxR fuel attempt job).1.status = "failed")
      ∧ ((worker_loop outcomes jitter maxR fuel attempt job).1.status = "completed" →
          (worker_loop outcomes jitter maxR fuel attempt job).1.result.isSome
          ∧ (worker_loop outcomes jitter maxR fuel attempt job).1.error = none
          ∧ (worker_loop outcomes jitter maxR fuel attempt job).1.error_details = none)
      ∧ ((worker_loop outcomes jitter maxR fuel attempt job).1.status = "failed" →
          (worker_loop outcomes jitter maxR fuel attempt job).1.error.isSome
          ∧ (worker_loop outcomes jitter maxR fuel attempt job).1.result = none) := by
  intro fuel
  induction fuel with
  | zero => intro attempt job hle hfuel _ _; omega
  | succ fuel ih =>
    intro attempt job hle hfuel hstat hres
    simp only [worker_loop, hle, if_true]
    cases hE : attempt_eval (outcomes attempt) with
    | ok pc =>
      refine ⟨.inl rfl, fun _ => ⟨rfl, rfl, rfl⟩, fun h => ?_⟩
      simp at h
    | error e =>
      simp only
      split
      · rename_i hretry
        exact ih (attempt + 1)
          { job with error := some e.message,
                     error_details := some (e.code, e.retryable) }
          (by omega) (by omega) hstat hres
      · refine ⟨.inr rfl, fun h => ?_, fun _ => ⟨rfl, hres⟩⟩
        simp at h

/-- If every attempt before `k` fails with a retryable error, `k` is
within the retry budget, and attempt `k` fails with a non-retryable
error, the loop stops right after attempt `k` with status failed and the
final error fields of attempt `k`. -/
theorem worker_loop_stops_nonretryable (outcomes : Nat → AttemptResult)
    (jitter : Nat → ℚ) (maxR : Nat) (k : Nat) (e : ScraperError) :
    ∀ fuel attempt job, attempt ≤ k → k ≤ maxR → maxR + 1 - attempt ≤ fuel →
      (∀ i, attempt ≤ i → i < k →
        ∃ ei, attempt_eval (outcomes i) = .error ei ∧ ei.retryable = true) →
      attempt_eval (outcomes k) = .error e → e.retryable = false →
      (worker_loop outcomes jitter maxR fuel attempt job).2.1 = k + 1 - attempt
      ∧ (worker_loop outcomes jitter maxR fuel attempt job).1.status = "failed"
      ∧ (worker_loop outcomes jitter maxR fuel attempt job).1.error = some e.message
      ∧ (worker_loop outcomes jitter maxR fuel attempt job).1.error_details
          = some (e.code, e.retryable) := by
  intro fuel
  induction fuel with
  | zero => intro attempt job hak hkm hfuel _ _ _; omega
  | succ fuel ih =>
    intro attempt job hak hkm hfuel hpre hk hnr
    have hle : attempt ≤ maxR := by omega
    simp only [worker_loop, hle, if_true]
    by_cases hek : attempt = k
    · subst hek
      rw [hk]
      simp only
      have : ¬ (e.retryable = true ∧ attempt < maxR) := by
        intro h
        rw [hnr] at h
        exact absurd h.1 (by simp)
      rw [if_neg this]
      simp
    · have hlt : attempt < k := by omega
      obtain ⟨ei, hei, hretry⟩ := hpre attempt (le_refl _) hlt
      rw [hei]
      simp only
      have hcond : ei.retryable = true ∧ attempt < maxR := ⟨hretry, by omega⟩
      rw [if_pos hcond]
      have h := ih (attempt + 1)
        { job with error := some ei.message,
                   error_details := some (ei.code, ei.retryable) }
        (by omega) hkm (by omega)
        (fun i hi hik => hpre i (by omega) hik) hk hnr
      simp only at h ⊢
      refine ⟨by omega, h.2⟩

/-- Claim C2: the total number of fetch attempts per job is at most
MAX_RETRIES + 1, and a job whose attempt fails with a non-retryable error
terminates with status failed immediately after that attempt. -/
theorem C2_retry_bound (outcomes : Nat → AttemptResult) (jitter : Nat → ℚ)
    (maxR k : Nat) (e : ScraperError) :
    (process_job outcomes jitter maxR).2.1 ≤ maxR + 1
    ∧ (k ≤ maxR →
        (∀ i, i < k →
          ∃ ei, attempt_eval (outcomes i) = .error ei ∧ ei.retryable = true) →
        attempt_eval (outcomes k) = .error e → e.retryable = false →
        (process_job outcomes jitter maxR).2.1 = k + 1
        ∧ (process_job outcomes jitter maxR).1.status = "failed") := by
  constructor
  · have h := worker_loop_calls_le outcomes jitter maxR (maxR + 1) 0
      { new_job with status := "processing" }
    simpa [process_job] using h
  · intro hkm hpre hk hnr
    have h := worker_loop_stops_nonretryable outcomes jitter maxR k e
      (maxR + 1) 0 { new_job with status := "processing" }
      (by omega) hkm (by omega) (fun i _ hik => hpre i hik) hk hnr
    exact ⟨by simpa [process_job] using h.1, by simpa [process_job] using h.2.1⟩

/-- Witness for C2: a retryable timeout then a non-retryable HTTP 404,
with MAX_RETRIES = 3: exactly two attempts and a failed job. -/
theorem C2_retry_bound_witness :
    (process_job c_then404_outcomes c_jitter 3).2.1 = 2
    ∧ (process_job c_then404_outcomes c_jitter 3).1.status = "failed" := by
  have h := (C2_retry_bound c_then404_outcomes c_jitter 3 1
    ⟨"HTTP 404 from example.com", "http_404", false⟩).2
    (by omega)
    (fun i hi => by
      interval_cases i
      exact ⟨⟨"Timeout fetching example.com", "timeout", true⟩, rfl, rfl⟩)
    rfl rfl
  exact ⟨h.1, h.2⟩

/-- Claim C3: the persisted status sequence of a processed job is exactly
queued, processing, then one terminal status among completed and failed
(no reverse transitions, no skipping), and the terminal record satisfies
the completed/failed field invariants; a completion after earlier failed
attempts clears the error fields. -/
theorem C3_status_machine (outcomes : Nat → AttemptResult) (jitter : Nat → ℚ)
    (maxR : Nat) :
    (persisted_statuses outcomes jitter maxR =
      ["queued", "processing", (process_job outcomes jitter maxR).1.status])
    ∧ ((process_job outcomes jitter maxR).1.status = "completed"
        ∨ (process_job outcomes jitter maxR).1.status = "failed")
    ∧ ((process_job outcomes jitter maxR).1.status = "completed" →
        (process_job outcomes jitter maxR).1.result.isSome
        ∧ (process_job outcomes jitter maxR).1.error = none
        ∧ (process_job outcomes jitter maxR).1.error_details = none)
    ∧ ((process_job outcomes jitter maxR).1.status = "failed" →
        (process_job outcomes jitter maxR).1.error.isSome
        ∧ (process_job outcomes jitter maxR).1.result = none) := by
  have h := worker_loop_terminal outcomes jitter maxR (maxR + 1) 0
    { new_job with status := "processing" } (by omega) (by omega) rfl rfl
  exact ⟨rfl, h.1, h.2.1, h.2.2⟩

/-- Witness for C3: a job that times out once and then succeeds ends
completed with a result and cleared error fields. -/
theorem C3_status_machine_witness :
    (process_job c_then_ok_outcomes c_jitter 3).1.status = "completed"
    ∧ (process_job c_then_ok_outcomes c_jitter 3).1.result.isSome
    ∧ (process_job c_then_ok_outcomes c_jitter 3).1.error = none
    ∧ (process_job c_then_ok_outcomes c_jitter 3).1.error_details = none := by
  have hc : (process_job c_then_ok_outcomes c_jitter 3).1.status = "completed" := by
    simp [process_job, worker_loop, c_then_ok_outcomes, c_jitter, attempt_eval]
  have h := (C3_status_machine c_then_ok_outcomes c_jitter 3).2.2.1 hc
  exact ⟨hc, h⟩

/-- Each backoff sleep performed by the retry loop: the sleep recorded at
position `idx` of the delay list for a loop started at `attempt` equals
`2 ^ (attempt + idx + 1) + jitter (attempt + idx)`. -/
theorem worker_loop_delay_formula (outcomes : Nat → AttemptResult)
    (jitter : Nat → ℚ) (maxR : Nat) :
    ∀ fuel attempt job idx v,
      (worker_loop outcomes jitter maxR fuel attempt job).2.2.get? idx = some v →
      v = 2 ^ (attempt + idx + 1) + jitter (attempt + idx) := by
  intro fuel
  induction fuel with
  | zero => intro attempt job idx v h; simp [worker_loop] at h
  | succ fuel ih =>
    intro attempt job idx v h
    simp only [worker_loop] at h
    by_cases hle : attempt ≤ maxR
    · rw [if_pos hle] at h
      cases hE : attempt_eval (outcomes attempt) with
      | ok pc => rw [hE] at h; simp at h
      | error e =>
        rw [hE] at h
        simp only at h
        by_cases hretry : e.retryable = true ∧ attempt < maxR
        · rw [if_pos hretry] at h
          simp only at h
          cases idx with
          | zero =>
            simp only [List.get?_cons_zero, Option.some.injEq] at h
            subst h
            norm_num
          | succ idx =>
            simp only [List.get?_cons_succ] at h
            have := ih (attempt + 1)
              { job with error := some e.message,
                         error_details := some (e.code, e.retryable) } idx v h
            have harith : attempt + 1 + idx = attempt + (idx + 1) := by omega
            rw [harith] at this
            exact this
        · rw [if_neg hretry] at h
          simp at h
    · rw [if_neg hle] at h
      simp at h

/-- Claim C5, counterexample: after a retryable failure of the first
attempt with a jitter draw of 0, the recorded sleep is exactly 2 seconds,
so the second attempt does not begin "at least 3 seconds" after the first
failure. -/
theorem C5_counterexample :
    (process_job c_timeout_outcomes c_jitter 3).2.2.get? 0 = some 2
    ∧ ¬ ((3 : ℚ) ≤ 2) := by
  constructor
  · norm_num [process_job, worker_loop, c_timeout_outcomes, c_jitter, attempt_eval]
  · norm_num

/-- Claim C5, amended: whenever an attempt fails with a retryable error
and retry budget remains, the worker sleeps `2 ^ (attempt + 1) + U(0, 1)`
seconds before the next attempt; in particular, after a retryable failure
of the first attempt the second attempt begins at least 2 (and at most 3)
seconds after the first failure. -/
theorem C5_backoff (outcomes : Nat → AttemptResult) (jitter : Nat → ℚ)
    (maxR : Nat) (hj : ∀ i, (0 : ℚ) ≤ jitter i ∧ jitter i ≤ 1) :
    (∀ idx v, (process_job outcomes jitter maxR).2.2.get? idx = some v →
      v = 2 ^ (idx + 1) + jitter idx ∧ 2 ≤ v)
    ∧ (∀ v, (process_job outcomes jitter maxR).2.2.get? 0 = some v →
      2 ≤ v ∧ v ≤ 3) := by
  have hform : ∀ idx v,
      (process_job outcomes jitter maxR).2.2.get? idx = some v →
      v = 2 ^ (idx + 1) + jitter idx := by
    intro idx v h
    have := worker_loop_delay_formula outcomes jitter maxR (maxR + 1) 0
      { new_job with status := "processing" } idx v h
    simpa using this
  constructor
  · intro idx v h
    refine ⟨hform idx v h, ?_⟩
    rw [hform idx v h]
    have h1 : (2 : ℚ) ≤ 2 ^ (idx + 1) := by
      calc (2 : ℚ) = 2 ^ 1 := by norm_num
      _ ≤ 2 ^ (idx + 1) := by
          apply pow_le_pow_right₀ (by norm_num)
          omega
    have h2 := (hj idx).1
    linarith
  · intro v h
    have := hform 0 v h
    rw [this]
    have h1 := (hj 0).1
    have h2 := (hj 0).2
    constructor <;> [skip; skip] <;> norm_num <;> linarith

/-- Witness for the amended C5: all-timeout attempts with zero jitter and
MAX_RETRIES = 3 record a first sleep of 2 seconds, within [2, 3]. -/
theorem C5_backoff_witness :
    (process_job c_timeout_outcomes c_jitter 3).2.2.get? 0 = some 2
    ∧ (2 : ℚ) ≤ 2 ∧ (2 : ℚ) ≤ 3 := by
  have hget : (process_job c_timeout_outcomes c_jitter 3).2.2.get? 0 = some 2 := by
    norm_num [process_job, worker_loop, c_timeout_outcomes, c_jitter, attempt_eval]
  have h := (C5_backoff c_timeout_outcomes c_jitter 3
    (fun i => by constructor <;> norm_num [c_jitter])).2 2 hget
  exact ⟨hget, h⟩

/-- The two equation shapes of the restart critical section. -/
theorem browser_fetch_step_over (maxReq : Nat) (s : BrowserState)
    (h : maxReq < s.requests_count + 1) :
    browser_fetch_step maxReq s =
      (⟨1, s.instance_id + 1⟩, s.instance_id + 1) := by
  simp [browser_fetch_step, h]

theorem browser_fetch_step_under (maxReq : Nat) (s : BrowserState)
    (h : ¬ maxReq < s.requests_count + 1) :
    browser_fetch_step maxReq s =
      (⟨s.requests_count + 1, s.instance_id⟩, s.instance_id) := by
  simp [browser_fetch_step, h]

/-- Instances older than the current browser are never served again. -/
theorem browser_run_old_instance (maxReq : Nat) :
    ∀ n s i, i < s.instance_id → (browser_run maxReq n s).2.count i = 0 := by
  intro n
  induction n with
  | zero => intro s i _; simp [browser_run]
  | succ n ih =>
    intro s i hi
    by_cases hover : maxReq < s.requests_count + 1
    · simp only [browser_run, browser_fetch_step_over maxReq s hover,
        List.count_cons, beq_iff_eq]
      rw [ih ⟨1, s.instance_id + 1⟩ i (by dsimp; omega), if_neg (by omega)]
    · simp only [browser_run, browser_fetch_step_under maxReq s hover,
        List.count_cons, beq_iff_eq]
      rw [ih ⟨s.requests_count + 1, s.instance_id⟩ i (by dsimp; omega),
        if_neg (by omega)]

/-- The current instance is served at most `maxReq - requests_count` more
times: it already carries `requests_count` navigations. -/
theorem browser_run_current_instance (maxReq : Nat) :
    ∀ n s, s.requests_count ≤ maxReq →
      (browser_run maxReq n s).2.count s.instance_id ≤ maxReq - s.requests_count := by
  intro n
  induction n with
  | zero => intro s _; simp [browser_run]
  | succ n ih =>
    intro s hs
    by_cases hover : maxReq < s.requests_count + 1
    · simp only [browser_run, browser_fetch_step_over maxReq s hover,
        List.count_cons, beq_iff_eq]
      rw [browser_run_old_instance maxReq n ⟨1, s.instance_id + 1⟩ s.instance_id
        (by dsimp; omega), if_neg (by omega)]
      omega
    · simp only [browser_run, browser_fetch_step_under maxReq s hover,
        List.count_cons, beq_iff_eq]
      have h := ih ⟨s.requests_count + 1, s.instance_id⟩ (by dsimp; omega)
      dsimp at h
      rw [if_pos trivial]
      omega

/-- Every instance, current or future, is served at most `maxReq` times in
any run whose starting counter is within bounds. -/
theorem browser_run_all_instances (maxReq : Nat) (hm : 1 ≤ maxReq) :
    ∀ n s i, s.requests_count ≤ maxReq →
      (browser_run maxReq n s).2.count i ≤ maxReq := by
  intro n
  induction n with
  | zero => intro s i _; simp [browser_run]
  | succ n ih =>
    intro s i hs
    by_cases hover : maxReq < s.requests_count + 1
    · simp only [browser_run, browser_fetch_step_over maxReq s hover,
        List.count_cons, beq_iff_eq]
      by_cases hi : s.instance_id + 1 = i
      · rw [if_pos hi, ← hi]
        have h := browser_run_current_instance maxReq n
          ⟨1, s.instance_id + 1⟩ (by dsimp; omega)
        dsimp at h
        omega
      · rw [if_neg hi]
        have h := ih ⟨1, s.instance_id + 1⟩ i (by dsimp; omega)
        omega
    · simp only [browser_run, browser_fetch_step_under maxReq s hover,
        List.count_cons, beq_iff_eq]
      by_cases hi : s.instance_id = i
      · rw [if_pos hi, ← hi]
        have h := browser_run_current_instance maxReq n
          ⟨s.requests_count + 1, s.instance_id⟩ (by dsimp; omega)
        dsimp at h
        omega
      · rw [if_neg hi]
        have h := ih ⟨s.requests_count + 1, s.instance_id⟩ i (by dsimp; omega)
        omega

/-- Claim C8: the counter is bumped on every fetch inside the restart
critical section; when it exceeds MAX_REQUESTS_PER_BROWSER the browser is
relaunched and the counter resets to 1, so one browser instance serves at
most MAX_REQUESTS_PER_BROWSER navigations; with the cap at 3, five
fetches cause exactly one restart. -/
theorem C8_browser_recycling (maxReq n : Nat) (s : BrowserState)
    (hm : 1 ≤ maxReq) :
    (∀ i, (browser_run maxReq n browser_init).2.count i ≤ maxReq)
    ∧ (maxReq < s.requests_count + 1 →
        browser_fetch_step maxReq s =
          ({ requests_count := 1, instance_id := s.instance_id + 1 },
            s.instance_id + 1))
    ∧ (s.requests_count + 1 ≤ maxReq →
        browser_fetch_step maxReq s =
          ({ s with requests_count := s.requests_count + 1 }, s.instance_id))
    ∧ (browser_run 3 5 browser_init).1.instance_id = 1
    ∧ (browser_run 3 5 browser_init).2 = [0, 0, 0, 1, 1] := by
  refine ⟨?_, ?_, ?_, by decide, by decide⟩
  · intro i
    exact browser_run_all_instances maxReq hm n browser_init i
      (by dsimp [browser_init]; omega)
  · intro h
    simp [browser_fetch_step, h]
  · intro h
    simp only [browser_fetch_step]
    rw [if_neg (by omega)]

/-- Witness for C8 at MAX_REQUESTS_PER_BROWSER = 3 over five fetches. -/
theorem C8_browser_recycling_witness :
    (browser_run 3 5 browser_init).2.count 0 ≤ 3
    ∧ (browser_run 3 5 browser_init).1.instance_id = 1
    ∧ (browser_run 3 5 browser_init).2 = [0, 0, 0, 1, 1] := by
  have h := C8_browser_recycling 3 5 browser_init (by norm_num)
  exact ⟨h.1 0, h.2.2.2.1, h.2.2.2.2⟩

/-- A list element picked at a reduced index belongs to the list. -/
theorem getD_mod_mem (l : List String) (i : Nat) (d : String) (hl : l ≠ []) :
    l.getD (i % l.length) d ∈ l := by
  have hpos : 0 < l.length := List.length_pos.mpr hl
  have hlt : i % l.length < l.length := Nat.mod_lt _ hpos
  rw [List.getD_eq_getElem?_getD, List.getElem?_eq_getElem hlt, Option.getD_some]
  exact List.getElem_mem hlt

/-- Both strategies pick an element of the list they are given. -/
theorem pick_proxy_mem (s : PMState) (l : List String) (rand : Nat)
    (hl : l ≠ []) :
    ∃ r, (pick_proxy s l rand).2 = some r ∧ r ∈ l := by
  cases hst : s.strategy with
  | roundRobin =>
      simp only [pick_proxy, hst]
      exact ⟨_, rfl, getD_mod_mem l _ _ hl⟩
  | random =>
      simp only [pick_proxy, hst]
      exact ⟨_, rfl, getD_mod_mem l _ _ hl⟩

/-- Neither strategy touches the quarantine set. -/
theorem pick_proxy_bad (s : PMState) (l : List String) (rand : Nat) :
    (pick_proxy s l rand).1.bad_proxies = s.bad_proxies := by
  cases hst : s.strategy <;> simp [pick_proxy, hst]

/-- mark_bad bumps the failure count of its proxy by one. -/
theorem failures_of_mark_bad (s : PMState) (p : String) (hp : p ≠ "") :
    failures_of (mark_bad s p) p = failures_of s p + 1 := by
  simp only [mark_bad, if_neg hp]
  split <;> simp [failures_of, set_assoc]

/-- mark_bad never removes a proxy from quarantine. -/
theorem mem_bad_mark_bad (s : PMState) (p q : String)
    (hp : p ∈ s.bad_proxies) : p ∈ (mark_bad s q).bad_proxies := by
  simp only [mark_bad]
  split
  · exact hp
  · split
    · split
      · exact hp
      · exact List.mem_cons_of_mem _ hp
    · exact hp

/-- A mark_bad on a proxy that already carries at least two failures puts
it in quarantine. -/
theorem mark_bad_quarantines (s : PMState) (p : String) (hp : p ≠ "")
    (h : 2 ≤ failures_of s p) : p ∈ (mark_bad s p).bad_proxies := by
  simp only [mark_bad, if_neg hp]
  rw [if_pos (by omega)]
  split
  · rename_i hc
    simpa using hc
  · exact List.mem_cons_self _ _

/-- get_next_proxy when the pool is empty: no proxy, no reset. -/
theorem get_next_proxy_empty_pool (s : PMState) (rand : Nat)
    (hnil : s.proxies = []) :
    get_next_proxy s rand = (s, none, false) := by
  simp only [get_next_proxy]
  rw [if_pos (by rw [hnil]; rfl), if_neg (by rw [hnil]; simp)]

/-- get_next_proxy when the pool is non-empty but no proxy is available:
the reset branch. -/
theorem get_next_proxy_reset_eq (s : PMState) (rand : Nat)
    (he : (s.proxies.filter (fun q => !s.bad_proxies.contains q)).isEmpty = true)
    (hne : s.proxies.isEmpty = false) :
    get_next_proxy s rand =
      ((pick_proxy { s with bad_proxies := [] } s.proxies rand).1,
       (pick_proxy { s with bad_proxies := [] } s.proxies rand).2, true) := by
  simp only [get_next_proxy]
  rw [if_pos he, if_pos (by rw [hne]; rfl)]

/-- get_next_proxy when some proxy is available: draw from the filtered
list, no reset. -/
theorem get_next_proxy_avail_eq (s : PMState) (rand : Nat)
    (he : (s.proxies.filter (fun q => !s.bad_proxies.contains q)).isEmpty = false) :
    get_next_proxy s rand =
      ((pick_proxy s (s.proxies.filter (fun q => !s.bad_proxies.contains q)) rand).1,
       (pick_proxy s (s.proxies.filter (fun q => !s.bad_proxies.contains q)) rand).2,
       false) := by
  simp only [get_next_proxy]
  rw [if_neg (by rw [he]; exact Bool.false_ne_true)]

/-- A next call that does not reset leaves the quarantine set unchanged. -/
theorem get_next_proxy_no_reset_state (s : PMState) (rand : Nat)
    (h : (get_next_proxy s rand).2.2 = false) :
    (get_next_proxy s rand).1.bad_proxies = s.bad_proxies := by
  by_cases he : (s.proxies.filter (fun q => !s.bad_proxies.contains q)).isEmpty = true
  · cases hne : s.proxies.isEmpty with
    | true =>
        have hnil : s.proxies = [] := by
          cases hcase : s.proxies with
          | nil => rfl
          | cons a l => rw [hcase] at hne; cases hne
        rw [get_next_proxy_empty_pool s rand hnil]
    | false =>
        rw [get_next_proxy_reset_eq s rand he hne] at h
        cases h
  · have he2 : (s.proxies.filter (fun q => !s.bad_proxies.contains q)).isEmpty = false := by
      cases hcase : (s.proxies.filter (fun q => !s.bad_proxies.contains q)).isEmpty with
      | true => exact absurd hcase he
      | false => rfl
    rw [get_next_proxy_avail_eq s rand he2]
    exact pick_proxy_bad s _ rand

/-- A non-resetting next call never returns a quarantined proxy. -/
theorem get_next_avoids_bad (s : PMState) (rand : Nat) (p : String)
    (hp : p ∈ s.bad_proxies) (hr : (get_next_proxy s rand).2.2 = false) :
    (get_next_proxy s rand).2.1 ≠ some p := by
  by_cases he : (s.proxies.filter (fun q => !s.bad_proxies.contains q)).isEmpty = true
  · cases hne : s.proxies.isEmpty with
    | true =>
        have hnil : s.proxies = [] := by
          cases hcase : s.proxies with
          | nil => rfl
          | cons a l => rw [hcase] at hne; cases hne
        rw [get_next_proxy_empty_pool s rand hnil]
        intro hcon
        cases hcon
    | false =>
        rw [get_next_proxy_reset_eq s rand he hne] at hr
        cases hr
  · have he2 : (s.proxies.filter (fun q => !s.bad_proxies.contains q)).isEmpty = false := by
      cases hcase : (s.proxies.filter (fun q => !s.bad_proxies.contains q)).isEmpty with
      | true => exact absurd hcase he
      | false => rfl
    have hnil : s.proxies.filter (fun q => !s.bad_proxies.contains q) ≠ [] := by
      intro hcon
      rw [hcon] at he2
      cases he2
    obtain ⟨r, hr2, hmem⟩ := pick_proxy_mem s _ rand hnil
    rw [get_next_proxy_avail_eq s rand he2]
    dsimp only
    rw [hr2]
    intro hcon
    injection hcon with hcon
    subst hcon
    have hnb := (List.mem_filter.mp hmem).2
    simp at hnb
    exact hnb hp

/-- Only next events produce an output; when the output is present and
the reset flag is down, the returned proxy is not the quarantined one. -/
theorem pm_step_output_avoids (s : PMState) (e : PMEvent) (p : String)
    (hp : p ∈ s.bad_proxies) (hr : (pm_step s e).2.2 = false) :
    ∀ r, (pm_step s e).2.1 = some r → r ≠ some p := by
  cases e with
  | next rand =>
      intro r hr2
      dsimp [pm_step] at hr hr2
      injection hr2 with hr2
      rw [← hr2]
      exact get_next_avoids_bad s rand p hp hr
  | markBad q => intro r hr2; dsimp [pm_step] at hr2; cases hr2
  | markGood q => intro r hr2; dsimp [pm_step] at hr2; cases hr2
  | recordLatency q ms => intro r hr2; dsimp [pm_step] at hr2; cases hr2

/-- Any event that is not a mark_good on the quarantined proxy and not a
resetting next leaves that proxy quarantined. -/
theorem pm_step_preserves_bad (s : PMState) (e : PMEvent) (p : String)
    (hp : p ∈ s.bad_proxies) (hg : e ≠ .markGood p)
    (hr : (pm_step s e).2.2 = false) :
    p ∈ (pm_step s e).1.bad_proxies := by
  cases e with
  | next rand =>
      dsimp [pm_step] at hr ⊢
      rw [get_next_proxy_no_reset_state s rand hr]
      exact hp
  | markBad q => exact mem_bad_mark_bad s p q hp
  | markGood q =>
      dsimp [pm_step, mark_good]
      split
      · exact hp
      · rw [List.mem_filter]
        refine ⟨hp, ?_⟩
        have hqp : p ≠ q := by
          intro hcon
          exact hg (by rw [hcon])
        simp [hqp]
  | recordLatency q ms =>
      dsimp [pm_step, record_latency]
      exact hp

/-- Over any trace with no mark_good on the quarantined proxy and no
full-pool reset, no next output is that proxy. -/
theorem pm_run_avoids_quarantined (p : String) :
    ∀ (trace : List PMEvent) (s : PMState), p ∈ s.bad_proxies →
      (∀ e ∈ trace, e ≠ .markGood p) →
      (∀ o ∈ (pm_run s trace).2, o.2 = false) →
      ∀ o ∈ (pm_run s trace).2, o.1 ≠ some p := by
  intro trace
  induction trace with
  | nil =>
      intro s _ _ _ o ho
      simp [pm_run] at ho
  | cons e es ih =>
    intro s hp hg hnr o ho
    simp only [pm_run] at ho hnr
    have hg1 : e ≠ .markGood p := hg e (List.mem_cons_self e es)
    cases hout : (pm_step s e).2.1 with
    | none =>
        rw [hout] at ho hnr
        have hflag : (pm_step s e).2.2 = false := by
          cases e with
          | next rand => dsimp [pm_step] at hout; cases hout
          | markBad q => rfl
          | markGood q => rfl
          | recordLatency q ms => rfl
        exact ih (pm_step s e).1
          (pm_step_preserves_bad s e p hp hg1 hflag)
          (fun x hx => hg x (List.mem_cons_of_mem e hx)) hnr o ho
    | some r =>
        rw [hout] at ho hnr
        have hflag : (pm_step s e).2.2 = false :=
          hnr (r, (pm_step s e).2.2) (List.mem_cons_self _ _)
        rcases List.mem_cons.mp ho with rfl | ho2
        · exact pm_step_output_avoids s e p hp hflag r hout
        · exact ih (pm_step s e).1
            (pm_step_preserves_bad s e p hp hg1 hflag)
            (fun x hx => hg x (List.mem_cons_of_mem e hx))
            (fun x hx => hnr x (List.mem_cons_of_mem _ hx)) o ho2

/-- When every proxy is quarantined and the pool is non-empty, next
clears the quarantine set and draws from the full list. -/
theorem get_next_proxy_reset (s : PMState) (rand : Nat)
    (hne : s.proxies ≠ []) (hall : ∀ q ∈ s.proxies, q ∈ s.bad_proxies) :
    (get_next_proxy s rand).1.bad_proxies = []
    ∧ (get_next_proxy s rand).2.2 = true
    ∧ ∃ r, (get_next_proxy s rand).2.1 = some r ∧ r ∈ s.proxies := by
  have hav : s.proxies.filter (fun q => !s.bad_proxies.contains q) = [] := by
    rw [List.filter_eq_nil_iff]
    intro a ha
    rw [Bool.not_eq_true, Bool.not_eq_false', List.contains_eq_any_beq,
      List.any_eq_true]
    exact ⟨a, hall a ha, by simp⟩
  have hne2 : s.proxies.isEmpty = false := by
    cases hcase : s.proxies with
    | nil => exact absurd hcase hne
    | cons a l => rfl
  have hae : (s.proxies.filter (fun q => !s.bad_proxies.contains q)).isEmpty = true := by
    rw [hav]
    rfl
  obtain ⟨r, hr, hmem⟩ :=
    pick_proxy_mem { s with bad_proxies := [] } s.proxies rand hne
  rw [get_next_proxy_reset_eq s rand hae hne2]
  refine ⟨?_, rfl, r, hr, hmem⟩
  have := pick_proxy_bad { s with bad_proxies := [] } s.proxies rand
  exact this

/-- mark_good deletes the failure record and leaves quarantine. -/
theorem mark_good_clears (s : PMState) (p : String) (hp : p ≠ "") :
    failures_of (mark_good s p) p = 0
    ∧ p ∉ (mark_good s p).bad_proxies := by
  simp only [mark_good, if_neg hp]
  constructor
  · have hfind : (s.proxy_failures.filter (fun a => a.1 ≠ p)).find?
        (fun a => a.1 = p) = none := by
      rw [List.find?_eq_none]
      intro x hx
      have h2 := (List.mem_filter.mp hx).2
      simpa using h2
    simp only [failures_of]
    rw [hfind]
    rfl
  · intro hmem
    have h2 := (List.mem_filter.mp hmem).2
    simp at h2

/-- Claim C6: three consecutive mark_bad calls quarantine a proxy; while
it is quarantined, next never returns it over any trace that contains no
mark_good on it and in which no next call finds the whole pool
quarantined; when every proxy is quarantined and the pool is non-empty,
next clears the quarantine set and draws from the full list; mark_good
clears the failure count and the quarantine flag. -/
theorem C6_proxy_quarantine :
    (∀ (s : PMState) (p : String), p ≠ "" →
      p ∈ (mark_bad (mark_bad (mark_bad s p) p) p).bad_proxies)
    ∧ (∀ (p : String) (trace : List PMEvent) (s : PMState),
        p ∈ s.bad_proxies →
        (∀ e ∈ trace, e ≠ .markGood p) →
        (∀ o ∈ (pm_run s trace).2, o.2 = false) →
        ∀ o ∈ (pm_run s trace).2, o.1 ≠ some p)
    ∧ (∀ (s : PMState) (rand : Nat), s.proxies ≠ [] →
        (∀ q ∈ s.proxies, q ∈ s.bad_proxies) →
        (get_next_proxy s rand).1.bad_proxies = []
        ∧ (get_next_proxy s rand).2.2 = true
        ∧ ∃ r, (get_next_proxy s rand).2.1 = some r ∧ r ∈ s.proxies)
    ∧ (∀ (s : PMState) (p : String), p ≠ "" →
        failures_of (mark_good s p) p = 0
        ∧ p ∉ (mark_good s p).bad_proxies) := by
  refine ⟨?_, ?_, ?_, ?_⟩
  · intro s p hp
    apply mark_bad_quarantines _ _ hp
    rw [failures_of_mark_bad _ _ hp, failures_of_mark_bad _ _ hp]
    omega
  · intro p trace s hp hg hnr
    exact pm_run_avoids_quarantined p trace s hp hg hnr
  · intro s rand hne hall
    exact get_next_proxy_reset s rand hne hall
  · intro s p hp
    exact mark_good_clears s p hp

/-- Witness for C6 on a concrete two-proxy round-robin pool: quarantining
builds up over three mark_bad calls, a rotation over the degraded pool
avoids the quarantined proxy, the all-quarantined pool resets, and
mark_good restores the proxy. -/
theorem C6_proxy_quarantine_witness :
    "http://a:1" ∈
      (mark_bad (mark_bad (mark_bad c6_fresh "http://a:1") "http://a:1")
        "http://a:1").bad_proxies
    ∧ some "http://b:2" ≠ some "http://a:1"
    ∧ (get_next_proxy { c6_fresh with bad_proxies := ["http://a:1", "http://b:2"] }
        0).1.bad_proxies = []
    ∧ failures_of (mark_good c6_quarantined "http://a:1") "http://a:1" = 0
    ∧ "http://a:1" ∉ (mark_good c6_quarantined "http://a:1").bad_proxies := by
  have h := C6_proxy_quarantine
  refine ⟨h.1 c6_fresh "http://a:1" (by decide), ?_, ?_, ?_, ?_⟩
  · exact h.2.1 "http://a:1" c6_trace c6_quarantined (by decide)
      (by decide) (by decide) (some "http://b:2", false) (by decide)
  · exact (h.2.2.1 { c6_fresh with bad_proxies := ["http://a:1", "http://b:2"] } 0
      (by decide) (by decide)).1
  · exact (h.2.2.2 c6_quarantined "http://a:1" (by decide)).1
  · exact (h.2.2.2 c6_quarantined "http://a:1" (by decide)).2

/-- Setting an index that exists and reading it back. -/
theorem get?_set_self (l : List WStatus) (i : Nat) (a b : WStatus)
    (h : l.get? i = some b) : (l.set i a).get? i = some a := by
  have hlt : i < l.length := by
    by_contra hge
    rw [List.get?_eq_none.mpr (by omega)] at h
    cases h
  rw [List.get?_eq_getElem?]
  exact List.getElem?_set_eq_of_lt a hlt

/-- Claim C7, counterexample: with MIN_DOMAIN_DELAY = 10, a first fetch
to the host at time 0, and two workers that both read the stale pacing
timestamp before either writes it, both workers dispatch at time 10: the
start-to-start separation between those two dispatches is 0 < 10, and the
second dispatch is 0 seconds after the recorded start of the first. -/
theorem C7_counterexample :
    pace_run 10 pace_init pace_cmds =
      some ⟨10, some 10, [.dispatched 10, .dispatched 10, .dispatched 0]⟩
    ∧ ¬ ((10 : ℚ) ≤ 10 - 10) := by
  constructor
  · norm_num [pace_run, pace_step, pace_init, pace_cmds]
  · norm_num

/-- Claim C7, amended: pacing guarantees the separation only when the
pacing blocks do not interleave: a fetch that enters pacing at time `t`
and observes the recorded start `ts` of the previous fetch dispatches no
earlier than `ts + MIN_DOMAIN_DELAY`, and writes the dispatch time into
the pacing map before dispatching. Two fetches whose pacing blocks
interleave (both read before either writes) can dispatch simultaneously. -/
theorem C7_amended_pacing (D : ℚ) (s : PaceSys) (w : Nat) (t ts : ℚ)
    (s' : PaceSys) (hts : s.last = some ts) (_hle : ts ≤ t)
    (hstep : pace_step D s (.enter w t) = some s') :
    (s'.workers.get? w = some (.dispatched t) → ts + D ≤ t ∧ s'.last = some t)
    ∧ (∀ u, s'.workers.get? w = some (.sleeping u) → u = ts + D
        ∧ ∀ s'', pace_step D s' (.wake w) = some s'' →
            s''.workers.get? w = some (.dispatched (ts + D))
            ∧ s''.last = some (ts + D)) := by
  simp only [pace_step] at hstep
  cases hw : s.workers.get? w with
  | none => rw [hw] at hstep; cases hstep
  | some st =>
    rw [hw] at hstep
    cases st with
    | sleeping u => cases hstep
    | dispatched d => cases hstep
    | idle =>
      rw [hts] at hstep
      dsimp only at hstep
      by_cases hc : s.clock ≤ t
      · rw [if_pos hc] at hstep
        by_cases hlt : t - ts < D
        · rw [if_pos hlt] at hstep
          injection hstep with hstep
          subst hstep
          have hget : ((s.workers.set w (.sleeping (ts + D))).get? w)
              = some (.sleeping (ts + D)) := get?_set_self _ _ _ _ hw
          constructor
          · intro hdisp
            dsimp only at hdisp
            rw [hget] at hdisp
            injection hdisp with hdisp
            cases hdisp
          · intro u hu
            dsimp only at hu
            rw [hget] at hu
            injection hu with hu
            have hu2 : u = ts + D := by injection hu.symm
            subst hu2
            refine ⟨rfl, ?_⟩
            intro s'' hstep2
            simp only [pace_step] at hstep2
            rw [hget] at hstep2
            dsimp only at hstep2
            by_cases hc2 : t ≤ ts + D
            · rw [if_pos hc2] at hstep2
              injection hstep2 with hstep2
              subst hstep2
              exact ⟨get?_set_self _ _ _ _ hget, rfl⟩
            · rw [if_neg hc2] at hstep2
              cases hstep2
        · rw [if_neg hlt] at hstep
          injection hstep with hstep
          subst hstep
          have hget : ((s.workers.set w (.dispatched t)).get? w)
              = some (.dispatched t) := get?_set_self _ _ _ _ hw
          constructor
          · intro _
            refine ⟨by linarith [not_lt.mp hlt], rfl⟩
          · intro u hu
            dsimp only at hu
            rw [hget] at hu
            injection hu with hu
            cases hu
      · rw [if_neg hc] at hstep
        cases hstep

/-- Witness for the amended C7: previous start recorded at 0, next fetch
enters at time 1 with delay 10; it sleeps until 10 and dispatches at 10,
having written 10 into the pacing map. -/
theorem C7_amended_pacing_witness :
    pace_step 10 ⟨1, some 0, [.sleeping 10]⟩ (.wake 0) =
      some ⟨10, some 10, [.dispatched 10]⟩
    ∧ ((⟨10, some 10, [.dispatched 10]⟩ : PaceSys).workers.get? 0 =
        some (.dispatched (0 + 10)))
    ∧ ((⟨10, some 10, [.dispatched 10]⟩ : PaceSys).last = some (0 + 10)) := by
  have hstep1 : pace_step 10 (⟨1, some 0, [.idle]⟩ : PaceSys) (.enter 0 1) =
      some ⟨1, some 0, [.sleeping 10]⟩ := by
    norm_num [pace_step]
  have hwake : pace_step 10 (⟨1, some 0, [.sleeping 10]⟩ : PaceSys) (.wake 0) =
      some ⟨10, some 10, [.dispatched 10]⟩ := by
    norm_num [pace_step]
  have h := C7_amended_pacing 10 ⟨1, some 0, [.idle]⟩ 0 1 0
    ⟨1, some 0, [.sleeping 10]⟩ rfl (by norm_num) hstep1
  have h2 := (h.2 10 rfl).2 ⟨10, some 10, [.dispatched 10]⟩ hwake
  exact ⟨hwake, h2.1, h2.2⟩

mutual

/-- find is the head of the preorder filter, on trees. -/
theorem findFirst_eq_filter_head (p : Html → Bool) :
    ∀ h : Html, findFirst p h = ((preorder h).filter p).head?
  | .text s => by
      rw [findFirst, preorder]
      by_cases hp : p (.text s)
      · rw [if_pos hp, List.filter_cons_of_pos hp]
        rfl
      · rw [if_neg hp, List.filter_cons_of_neg hp]
        rfl
  | .elem t a c => by
      rw [findFirst, preorder]
      by_cases hp : p (.elem t a c)
      · rw [if_pos hp, List.filter_cons_of_pos hp]
        rfl
      · rw [if_neg hp, List.filter_cons_of_neg hp]
        exact findFirstList_eq_filter_head p c

/-- find is the head of the preorder filter, on forests. -/
theorem findFirstList_eq_filter_head (p : Html → Bool) :
    ∀ l : List Html, findFirstList p l = ((preorderList l).filter p).head?
  | [] => by rw [findFirstList, preorderList]; rfl
  | h :: hs => by
      rw [findFirstList, preorderList, List.filter_append, List.head?_append,
        findFirst_eq_filter_head p h, findFirstList_eq_filter_head p hs]
      cases ((preorder h).filter p).head? <;> rfl

end

mutual

/-- find_all is the preorder filter, on trees. -/
theorem findAll_eq_filter (p : Html → Bool) :
    ∀ h : Html, findAll p h = (preorder h).filter p
  | .text s => by
      rw [findAll, preorder]
      by_cases hp : p (.text s)
      · rw [if_pos hp, List.filter_cons_of_pos hp]
        rfl
      · rw [if_neg hp, List.filter_cons_of_neg hp]
        rfl
  | .elem t a c => by
      rw [findAll, preorder]
      by_cases hp : p (.elem t a c)
      · rw [if_pos hp, List.filter_cons_of_pos hp, findAllList_eq_filter p c]
        rfl
      · rw [if_neg hp, List.filter_cons_of_neg hp, findAllList_eq_filter p c]
        rfl

/-- find_all is the preorder filter, on forests. -/
theorem findAllList_eq_filter (p : Html → Bool) :
    ∀ l : List Html, findAllList p l = (preorderList l).filter p
  | [] => by rw [findAllList, preorderList]; rfl
  | h :: hs => by
      rw [findAllList, preorderList, List.filter_append,
        findAll_eq_filter p h, findAllList_eq_filter p hs]

end

/-- The title fields agree. -/
theorem parse_title_eq_spec (doc : Doc) : parse_title doc = spec_title doc := by
  rw [parse_title, spec_title, findFirstList_eq_filter_head]

/-- Two-pattern meta lookup in code form equals the specification form. -/
theorem parse_author_eq_spec (doc : Doc) : parse_author doc = spec_author doc := by
  rw [parse_author, spec_author, spec_meta_content, spec_meta_content,
    findFirstList_eq_filter_head, findFirstList_eq_filter_head]
  cases ((preorderList doc).filter (isMetaWith "name" "author")).head? with
  | none =>
      cases ((preorderList doc).filter
          (isMetaWith "property" "article:author")).head? with
      | none => rfl
      | some m => rfl
  | some m => rfl

/-- Three-pattern meta lookup in code form equals the specification form. -/
theorem parse_publish_date_eq_spec (doc : Doc) :
    parse_publish_date doc = spec_publish_date doc := by
  rw [parse_publish_date, spec_publish_date, spec_meta_content,
    spec_meta_content, spec_meta_content, findFirstList_eq_filter_head,
    findFirstList_eq_filter_head, findFirstList_eq_filter_head]
  cases ((preorderList doc).filter (isMetaWith "name" "publish-date")).head? with
  | none =>
      cases ((preorderList doc).filter
          (isMetaWith "property" "article:published_time")).head? with
      | none =>
          cases ((preorderList doc).filter (isMetaWith "name" "date")).head? with
          | none => rfl
          | some m => rfl
      | some m => rfl
  | some m => rfl

/-- The truthiness test in the image loop is redundant: an src that starts
with "http" is non-empty. -/
theorem src_filter_eq (src : String) :
    (if src ≠ "" ∧ src.startsWith "http" then some src else none)
      = if src.startsWith "http" then some src else none := by
  by_cases hw : src.startsWith "http"
  · have hne : src ≠ "" := by
      intro hcon
      subst hcon
      exact absurd hw (by decide)
    rw [if_pos ⟨hne, hw⟩, if_pos hw]
  · rw [if_neg (fun h => hw h.2), if_neg hw]

/-- The image fold in code form equals filterMap-then-filter. -/
theorem images_fold_eq (l : List Html) :
    ∀ acc : List String,
      (l.foldl
        (fun acc img =>
          match getAttr img "src" with
          | some src => if src ≠ "" ∧ src.startsWith "http" then acc ++ [src] else acc
          | none => acc)
        acc)
      = acc ++ ((l.filterMap (fun h => getAttr h "src")).filter
          (fun s => s.startsWith "http")) := by
  induction l with
  | nil => intro acc; simp
  | cons h hs ih =>
      intro acc
      rw [List.foldl_cons, List.filterMap_cons]
      cases hsrc : getAttr h "src" with
      | none =>
          dsimp only
          rw [ih acc]
      | some src =>
          dsimp only
          by_cases hw : src.startsWith "http"
          · have hne : src ≠ "" := by
              intro hcon
              subst hcon
              exact absurd hw (by decide)
            simp only [List.filter_cons]
            rw [if_pos ⟨hne, hw⟩, if_pos hw, ih (acc ++ [src])]
            simp
          · simp only [List.filter_cons]
            rw [if_neg (fun hc => hw hc.2), if_neg hw, ih acc]

/-- The image lists agree. -/
theorem parse_images_eq_spec (doc : Doc) : parse_images doc = spec_images doc := by
  rw [parse_images, spec_images, findAllList_eq_filter, images_fold_eq]
  rfl

/-- Claim C9: for every HTML document the extractor's metadata equals the
reference definition assembled from the specification: first-title text,
first matching author and publish-date meta patterns in order, and the
document-order absolute image sources with duplicates preserved. -/
theorem C9_extractor_metadata (doc : Doc) :
    parse_metadata doc = spec_metadata doc := by
  rw [parse_metadata, spec_metadata, parse_title_eq_spec, parse_author_eq_spec,
    parse_publish_date_eq_spec, parse_images_eq_spec]

end GhostFetch
